import Mathlib

/-!
Verification of the dangercat EEG reader core against its specification.

The Rust sources are shallowly embedded:
* machine integers (`u16`, `u64`, `i16`, `i32`, `usize`) become `Nat`/`Int`
  with explicit wrapping (`% 2^w`) or saturation where the source can
  overflow or saturate;
* `f32`/`f64` arithmetic is idealised as exact rational (`ℚ`) arithmetic;
* fallible Rust code (`Result`) becomes `Except`, and a Rust panic
  (out-of-bounds index, division by zero on `u64`) is the `none` case of an
  outer `Option` layer;
* annotation-channel text handling (`String::from_utf8_lossy` plus `char`
  splitting/trimming) is modelled at the byte level, which agrees with the
  source on ASCII data (all data relevant to the claims is ASCII).
-/

/-! ### src/reference.rs -/

/-- Column `t` of a sample matrix: the value `data[ch][t]` for every channel
row `ch` (out-of-range reads are defaulted; callers guard the bound). -/
def matCol {α : Type} [Zero α] (data : List (List α)) (t : ℕ) : List α :=
  data.map (fun r => r.getD t 0)

/-- The accumulated cross-channel average at time `t` in
`compute_average_reference_f32`: `average /= num_channels as f32` after
`average += data[ch][t]` over all channels. -/
def colAvgQ (data : List (List ℚ)) (t : ℕ) : ℚ :=
  (matCol data t).sum / (data.length : ℚ)

/-- Uniform-row-length predicate: every row has the first row's length
(the `SampleMatrix` invariant of the spec). -/
def uniformRows {α : Type} (data : List (List α)) : Prop :=
  ∀ r ∈ data, r.length = data.headI.length

instance {α : Type} (data : List (List α)) : Decidable (uniformRows data) :=
  List.decidableBAll _ data

/-- Embedding of `compute_average_reference_f32` (src/reference.rs:3-24).
Empty input returns `Ok(Vec::new())`.  Otherwise the Rust loops read
`data[ch][t]` for all `t < data[0].len()` and `ch < num_channels`, which
panics (`none`) exactly when some row is shorter than the first row; when
in bounds, `average_ref[ch][t] = data[ch][t] - average(t)`.  The function
never constructs an `Err`. -/
def compute_average_reference_f32 (data : List (List ℚ)) :
    Option (Except String (List (List ℚ))) :=
  if data = [] then some (Except.ok []) else
  let num_time_points := data.headI.length
  if ∀ r ∈ data, num_time_points ≤ r.length then
    some (Except.ok (data.map (fun row =>
      (List.range num_time_points).map (fun t => row.getD t 0 - colAvgQ data t))))
  else none

/-- Rust `f64::round`: round half away from zero. -/
def rust_round (q : ℚ) : ℤ :=
  if 0 ≤ q then ⌊q + 1 / 2⌋ else ⌈q - 1 / 2⌉

/-- Rust saturating cast `f64 as i16` (applied after `.round()`). -/
def i16_sat (z : ℤ) : ℤ :=
  max (-32768) (min 32767 z)

/-- The accumulated cross-channel `f64` average at time `t` in
`compute_average_reference_i16`. -/
def colAvgZ (data : List (List ℤ)) (t : ℕ) : ℚ :=
  ((matCol data t).map (fun z : ℤ => (z : ℚ))).sum / (data.length : ℚ)

/-- Embedding of `compute_average_reference_i16` (src/reference.rs:26-47).
Same loop structure as the `f32` variant; the mean is accumulated in `f64`
(exact `ℚ` here) and `(data[ch][t] as f64 - average).round() as i16` is
rounding half away from zero followed by the saturating `i16` cast. -/
def compute_average_reference_i16 (data : List (List ℤ)) :
    Option (Except String (List (List ℤ))) :=
  if data = [] then some (Except.ok []) else
  let num_time_points := data.headI.length
  if ∀ r ∈ data, num_time_points ≤ r.length then
    some (Except.ok (data.map (fun row =>
      (List.range num_time_points).map (fun t =>
        i16_sat (rust_round ((row.getD t 0 : ℚ) - colAvgZ data t))))))
  else none

/-- The intermediate pre-rounding values `data[ch][t] as f64 - average` of
`compute_average_reference_i16` (src/reference.rs:42), before `.round() as
i16` is applied. -/
def average_reference_i16_preround (data : List (List ℤ)) :
    Option (List (List ℚ)) :=
  if data = [] then some [] else
  let num_time_points := data.headI.length
  if ∀ r ∈ data, num_time_points ≤ r.length then
    some (data.map (fun row =>
      (List.range num_time_points).map (fun t =>
        (row.getD t 0 : ℚ) - colAvgZ data t)))
  else none

/-! Helper lemmas about column sums. -/

lemma sum_map_sub_const (l : List ℚ) (c : ℚ) :
    (l.map (fun x => x - c)).sum = l.sum - l.length * c := by
  induction l with
  | nil => simp
  | cons a t ih =>
    simp only [List.map_cons, List.sum_cons, ih, List.length_cons]
    push_cast
    ring

lemma getD_range_map {α : Type} (T t : ℕ) (f : ℕ → α) (d : α)
    (ht : t < T) : ((List.range T).map f).getD t d = f t := by
  rw [List.getD_eq_getElem?_getD, List.getElem?_map, List.getElem?_range ht]
  rfl

lemma centered_sum (l : List ℚ) (c : ℚ) (hc : c = l.sum / l.length)
    (hl : l ≠ []) : (l.map (fun x => x - c)).sum = 0 := by
  have h0 : (l.length : ℚ) ≠ 0 :=
    Nat.cast_ne_zero.mpr (List.length_pos.mpr hl).ne'
  rw [sum_map_sub_const, hc]
  field_simp

/-- C1: for every non-empty sample matrix with uniform row lengths and
every in-range time index `t`, the cross-channel mean of the
average-referenced output at `t` is (in the exact-arithmetic model) zero:
the output column of `compute_average_reference_f32` sums to zero, and the
pre-rounding output column of `compute_average_reference_i16` sums to zero
exactly. -/
theorem avg_reference_zero_mean
    (A : List (List ℚ)) (B : List (List ℤ)) (t : ℕ)
    (hA : A ≠ []) (hAu : uniformRows A) (htA : t < A.headI.length)
    (hB : B ≠ []) (hBu : uniformRows B) (htB : t < B.headI.length) :
    (∃ R, compute_average_reference_f32 A = some (Except.ok R) ∧
      (matCol R t).sum = 0)
    ∧ (∃ P, average_reference_i16_preround B = some P ∧
      (matCol P t).sum = 0) := by
  constructor
  · have hguard : ∀ r ∈ A, A.headI.length ≤ r.length :=
      fun r hr => (hAu r hr).ge
    refine ⟨A.map (fun row => (List.range A.headI.length).map
        (fun s => row.getD s 0 - colAvgQ A s)), ?_, ?_⟩
    · simp only [compute_average_reference_f32]
      rw [if_neg hA, if_pos hguard]
    · have hcol : matCol (A.map (fun row =>
          (List.range A.headI.length).map
            (fun s => row.getD s 0 - colAvgQ A s))) t
          = (matCol A t).map (fun x => x - colAvgQ A t) := by
        simp only [matCol, List.map_map]
        refine List.map_congr_left (fun row hrow => ?_)
        simp only [Function.comp_apply]
        exact getD_range_map _ _ _ _ htA
      rw [hcol]
      refine centered_sum _ _ ?_ ?_
      · simp only [colAvgQ, matCol, List.length_map]
      · simp only [matCol, ne_eq, List.map_eq_nil_iff]
        exact hA
  · have hguard : ∀ r ∈ B, B.headI.length ≤ r.length :=
      fun r hr => (hBu r hr).ge
    refine ⟨B.map (fun row => (List.range B.headI.length).map
        (fun s => (row.getD s 0 : ℚ) - colAvgZ B s)), ?_, ?_⟩
    · simp only [average_reference_i16_preround]
      rw [if_neg hB, if_pos hguard]
    · have hcol : matCol (B.map (fun row =>
          (List.range B.headI.length).map
            (fun s => ((row.getD s 0 : ℤ) : ℚ) - colAvgZ B s))) t
          = ((matCol B t).map (fun z : ℤ => (z : ℚ))).map
              (fun x => x - colAvgZ B t) := by
        simp only [matCol, List.map_map]
        refine List.map_congr_left (fun row hrow => ?_)
        simp only [Function.comp_apply]
        exact getD_range_map _ _ _ _ htB
      rw [hcol]
      refine centered_sum _ _ ?_ ?_
      · simp only [colAvgZ, matCol, List.length_map]
      · simp only [matCol, ne_eq, List.map_eq_nil_iff]
        exact hB

/-- Witness for C1 at concrete inputs. -/
theorem avg_reference_zero_mean_witness :
    (∃ R, compute_average_reference_f32 [[1, 2], [3, 4]] = some (Except.ok R) ∧
      (matCol R 0).sum = 0)
    ∧ (∃ P, average_reference_i16_preround [[5], [7]] = some P ∧
      (matCol P 0).sum = 0) :=
  avg_reference_zero_mean [[1, 2], [3, 4]] [[5], [7]] 0
    (by decide) (by decide) (by decide) (by decide) (by decide) (by decide)

/-- C8: under the uniform-row-length precondition every `data[ch][t]`
access of both average-reference variants is in bounds — the embedding's
panic branch (`none`) is unreachable — while the functions do not
themselves validate the precondition: a ragged matrix whose later rows are
longer than the first is processed without any error. -/
theorem avg_reference_inbounds
    (A : List (List ℚ)) (B : List (List ℤ))
    (hAu : uniformRows A) (hBu : uniformRows B) :
    (compute_average_reference_f32 A ≠ none
      ∧ compute_average_reference_i16 B ≠ none)
    ∧ compute_average_reference_f32 [[1], [2, 3]]
        = some (Except.ok [[-(1 / 2)], [1 / 2]]) := by
  refine ⟨⟨?_, ?_⟩, ?_⟩
  · by_cases hA : A = []
    · simp [compute_average_reference_f32, hA]
    · have hguard : ∀ r ∈ A, A.headI.length ≤ r.length :=
        fun r hr => (hAu r hr).ge
      simp only [compute_average_reference_f32]
      rw [if_neg hA, if_pos hguard]
      exact Option.some_ne_none _
  · by_cases hB : B = []
    · simp [compute_average_reference_i16, hB]
    · have hguard : ∀ r ∈ B, B.headI.length ≤ r.length :=
        fun r hr => (hBu r hr).ge
      simp only [compute_average_reference_i16]
      rw [if_neg hB, if_pos hguard]
      exact Option.some_ne_none _
  · have h1 : ¬([[(1 : ℚ)], [2, 3]] = ([] : List (List ℚ))) := by simp
    simp only [compute_average_reference_f32]
    rw [if_neg h1]
    norm_num [colAvgQ, matCol, List.range_succ]

/-- Witness for C8 at concrete inputs. -/
theorem avg_reference_inbounds_witness :
    ((compute_average_reference_f32 [[1, 2], [3, 4]] ≠ none
      ∧ compute_average_reference_i16 [[5, 6], [7, 8]] ≠ none)
    ∧ compute_average_reference_f32 [[1], [2, 3]]
        = some (Except.ok [[-(1 / 2)], [1 / 2]])) :=
  avg_reference_inbounds [[1, 2], [3, 4]] [[5, 6], [7, 8]]
    (by decide) (by decide)

/-- C9 (amended): neither average-reference variant ever produces the
`Err` branch of its `Result` type, the empty matrix yields `Ok([])`, and
every matrix in which each row is at least as long as the first row (in
particular every uniform matrix) yields `Ok`. -/
theorem avg_reference_no_err :
    (∀ (A : List (List ℚ)) (e : String),
        compute_average_reference_f32 A ≠ some (Except.error e))
    ∧ (∀ (B : List (List ℤ)) (e : String),
        compute_average_reference_i16 B ≠ some (Except.error e))
    ∧ compute_average_reference_f32 [] = some (Except.ok [])
    ∧ compute_average_reference_i16 [] = some (Except.ok [])
    ∧ (∀ A : List (List ℚ), (∀ r ∈ A, A.headI.length ≤ r.length) →
        ∃ R, compute_average_reference_f32 A = some (Except.ok R))
    ∧ (∀ B : List (List ℤ), (∀ r ∈ B, B.headI.length ≤ r.length) →
        ∃ R, compute_average_reference_i16 B = some (Except.ok R)) := by
  refine ⟨?_, ?_, rfl, rfl, ?_, ?_⟩
  · intro A e h
    simp only [compute_average_reference_f32] at h
    split_ifs at h <;> simp_all
  · intro B e h
    simp only [compute_average_reference_i16] at h
    split_ifs at h <;> simp_all
  · intro A hguard
    by_cases hA : A = []
    · exact ⟨[], by subst hA; rfl⟩
    · refine ⟨A.map (fun row => (List.range A.headI.length).map
        (fun s => row.getD s 0 - colAvgQ A s)), ?_⟩
      simp only [compute_average_reference_f32]
      rw [if_neg hA, if_pos hguard]
  · intro B hguard
    by_cases hB : B = []
    · exact ⟨[], by subst hB; rfl⟩
    · refine ⟨B.map (fun row => (List.range B.headI.length).map
        (fun s => i16_sat (rust_round ((row.getD s 0 : ℚ) - colAvgZ B s)))), ?_⟩
      simp only [compute_average_reference_i16]
      rw [if_neg hB, if_pos hguard]

/-- Witness for C9's amended theorem at concrete inputs. -/
theorem avg_reference_no_err_witness :
    (∃ R, compute_average_reference_f32 [[1, 2], [3, 4]]
        = some (Except.ok R))
    ∧ (∃ R, compute_average_reference_i16 [[5], [7]]
        = some (Except.ok R)) :=
  ⟨avg_reference_no_err.2.2.2.2.1 [[1, 2], [3, 4]] (by decide),
   avg_reference_no_err.2.2.2.2.2 [[5], [7]] (by decide)⟩

/-- Counterexample to C9 as frozen: on the ragged matrix `[[1,2],[3]]`
(second row shorter than the first) `compute_average_reference_f32` does
not return `Ok` — the Rust code panics on the out-of-bounds read
`data[1][1]`, which the embedding reports as `none`. -/
theorem avg_reference_panic_counterexample :
    compute_average_reference_f32 [[1, 2], [3]] = none := rfl

/-! ### src/edfio.rs — annotation decoder (`parse_edf_annotations`)

Text processing is modelled at the byte level (`List ℕ`, one byte per
entry), which coincides with the source's `String::from_utf8_lossy` plus
`char`-based splitting/trimming on ASCII data. -/

/-- The `Markers` struct of src/lib.rs. -/
structure Markers where
  n_markers : ℕ
  markers : List ℚ
  deriving DecidableEq

/-- Splitting of a byte list at every separator byte, Rust
`str::split` style: `n` separators yield `n + 1` (possibly empty)
fragments. -/
def split_on_byte (sep : ℕ → Bool) (l : List ℕ) : List (List ℕ) :=
  l.foldr
    (fun b acc =>
      if sep b then [] :: acc
      else
        match acc with
        | [] => [[b]]
        | h :: t => (b :: h) :: t)
    [[]]

/-- ASCII whitespace, the bytes `str::trim` removes from ASCII text. -/
def is_ws_byte (b : ℕ) : Bool :=
  decide (b = 32 ∨ b = 9 ∨ b = 10 ∨ b = 11 ∨ b = 12 ∨ b = 13)

/-- Byte-level model of `str::trim`. -/
def trimBytes (bs : List ℕ) : List ℕ :=
  ((bs.dropWhile is_ws_byte).reverse.dropWhile is_ws_byte).reverse

/-- Byte-level model of `str::strip_prefix('+')`. -/
def stripPlus (bs : List ℕ) : Option (List ℕ) :=
  match bs with
  | 43 :: r => some r
  | _ => none

/-- ASCII digit test. -/
def is_ascii_digit_byte (b : ℕ) : Bool :=
  decide (48 ≤ b ∧ b ≤ 57)

/-- Value of an ASCII digit string. -/
def digits_to_nat (ds : List ℕ) : ℕ :=
  ds.foldl (fun a d => a * 10 + (d - 48)) 0

/-- Modelled from the spec and the Rust standard library:
`str::parse::<f64>` restricted to plain decimal notation
(`[+-] digits [. digits]`), the format produced by EDF annotation
timestamps; exponent/`inf`/`NaN` forms are not modelled.  The parsed value
is exact (`ℚ`) rather than a rounded `f64`. -/
def parse_f64 (bs : List ℕ) : Option ℚ :=
  let sign : ℚ × List ℕ :=
    match bs with
    | 43 :: r => (1, r)
    | 45 :: r => (-1, r)
    | _ => (1, bs)
  if sign.2 = [] then none
  else
    match split_on_byte (fun b => b == 46) sign.2 with
    | [ip] =>
        if ip ≠ [] ∧ ip.all is_ascii_digit_byte then
          some (sign.1 * (digits_to_nat ip : ℚ))
        else none
    | [ip, fp] =>
        if (ip ≠ [] ∨ fp ≠ []) ∧ ip.all is_ascii_digit_byte
            ∧ fp.all is_ascii_digit_byte then
          some (sign.1 * ((digits_to_nat ip : ℚ)
            + (digits_to_nat fp : ℚ) / (10 : ℚ) ^ fp.length))
        else none
    | _ => none

/-- Field list of one TAL record (src/edfio.rs:207-209): split on the two
sub-delimiters `\x14`/`\x15` and drop empty fragments. -/
def tal_parts (tal : List ℕ) : List (List ℕ) :=
  (split_on_byte (fun b => b == 20 || b == 21) tal).filter
    (fun s => !s.isEmpty)

/-- The onset candidate of a record's field list (src/edfio.rs:212-214 and
226-228): first field, `strip_prefix('+')`, `trim`, parse as `f64`. -/
def record_onset (parts : List (List ℕ)) : Option ℚ :=
  match parts.head? with
  | none => none
  | some f =>
      match stripPlus f with
      | none => none
      | some rest => parse_f64 (trimBytes rest)

/-- Processing of one TAL record in the loop of src/edfio.rs:203-236:
empty (after trim) records are skipped; the first timestamp is filled from
the record's onset candidate while still unset; records with at least
three fields whose onset candidate parses append the marker
`(onset - first_timestamp.unwrap_or(0.0)) * sampling_frequency`. -/
def tal_step (sr : ℕ) (st : Option ℚ × List ℚ) (tal : List ℕ) :
    Option ℚ × List ℚ :=
  if (trimBytes tal).isEmpty then st
  else
    let parts := tal_parts tal
    let ft : Option ℚ :=
      match st.1 with
      | some v => some v
      | none => record_onset parts
    let ms : List ℚ :=
      if parts.length < 3 then st.2
      else
        match record_onset parts with
        | some onset => st.2 ++ [(onset - ft.getD 0) * (sr : ℚ)]
        | none => st.2
    (ft, ms)

/-- Byte stream reassembled from the sample words (src/edfio.rs:192-197):
each sample, cast to `u16`, emits its low byte then its high byte. -/
def words_to_bytes (ws : List ℕ) : List ℕ :=
  ws.flatMap (fun w => [w % 256, (w / 256) % 256])

/-- The TAL records of an annotation signal: the byte stream split on the
NUL delimiter (src/edfio.rs:203). -/
def annotation_records (ws : List ℕ) : List (List ℕ) :=
  split_on_byte (fun b => b == 0) (words_to_bytes ws)

/-- Core of `parse_edf_annotations` (src/edfio.rs:187-239) over the `u16`
sample words.  Returns the final value of the internal `first_timestamp`
(the reference onset) together with the updated `Markers`:
`markers` extended in record order and `n_markers` set to the final
length. -/
def parse_edf_annotations_u16 (words : List ℕ) (sampling_frequency : ℕ)
    (eeg_markers : Markers) : Option ℚ × Markers :=
  let res := (annotation_records words).foldl (tal_step sampling_frequency)
    (none, eeg_markers.markers)
  (res.1, { n_markers := res.2.length, markers := res.2 })

/-- Rust saturating cast `f32 as u16` (truncation toward zero, negative
values to `0`, values above `65535` to `65535`). -/
def f32_to_u16 (q : ℚ) : ℕ :=
  if q < 0 then 0 else min 65535 (Int.toNat ⌊q⌋)

/-- Embedding of `parse_edf_annotations` (src/edfio.rs:187-239): the `f32`
samples are cast to `u16` words and decoded. -/
def parse_edf_annotations (signal_data : List ℚ) (sampling_frequency : ℕ)
    (eeg_markers : Markers) : Option ℚ × Markers :=
  parse_edf_annotations_u16 (signal_data.map f32_to_u16)
    sampling_frequency eeg_markers

/-- Onset candidates of a record list in record order: non-empty records'
parsed first fields. -/
def tal_onsets (tals : List (List ℕ)) : List ℚ :=
  (tals.filter (fun t => !(trimBytes t).isEmpty)).filterMap
    (fun t => record_onset (tal_parts t))

lemma foldl_tal_step_fst (sr : ℕ) (tals : List (List ℕ))
    (st : Option ℚ × List ℚ) :
    (tals.foldl (tal_step sr) st).1
      = (match st.1 with
        | some v => some v
        | none => (tal_onsets tals).head?) := by
  induction tals generalizing st with
  | nil =>
    cases hst : st.1 with
    | none => simp [hst, tal_onsets]
    | some v => simp [hst]
  | cons t ts ih =>
    by_cases hE : (trimBytes t).isEmpty
    · have hstep : tal_step sr st t = st := by
        simp [tal_step, hE]
      have honsets : tal_onsets (t :: ts) = tal_onsets ts := by
        simp [tal_onsets, hE]
      simp only [List.foldl_cons, hstep, ih, honsets]
    · have hstep : (tal_step sr st t).1
          = (match st.1 with
            | some v => some v
            | none => record_onset (tal_parts t)) := by
        simp [tal_step, hE]
      have honsets : tal_onsets (t :: ts)
          = (match record_onset (tal_parts t) with
            | some v => v :: tal_onsets ts
            | none => tal_onsets ts) := by
        simp only [tal_onsets, List.filter_cons, hE]
        simp [List.filterMap_cons]
        cases record_onset (tal_parts t) <;> simp
      rw [List.foldl_cons, ih, hstep]
      cases hst : st.1 with
      | some v => simp
      | none =>
        simp only []
        rw [honsets]
        cases record_onset (tal_parts t) <;> simp

/-- The C2 input stream: sample words whose reassembled bytes are the TAL
records `"+0.0\x14\x14\x00"` followed by `"+2.5\x14Event\x14\x00"` (with
one trailing `0x00` pad byte to fill the last 16-bit word). -/
def c2_samples : List ℚ :=
  [12331, 12334, 5140, 11008, 11826, 5173, 30277, 28261, 5236, 0]

/-- Counterexample to C2 as frozen: on the claimed TAL stream (at sampling
rate 100) the decoder yields no marker at all — in particular not one
marker at sample position `2.5 * 100 = 250`.  The record
`"+2.5\x14Event\x14"` splits into only two non-empty fields, short of the
three the marker branch requires. -/
theorem annotation_c2_counterexample :
    (parse_edf_annotations c2_samples 100
      { n_markers := 0, markers := [] }).2.markers ≠ [(250 : ℚ)] := by
  decide

/-- C2 (amended): on the claimed TAL stream the decoder yields a reference
onset of `0.0` and an empty marker list (no record has the three fields
the marker branch requires), for every sampling rate. -/
theorem annotation_c2_amended (sr : ℕ) :
    parse_edf_annotations c2_samples sr { n_markers := 0, markers := [] }
      = (some 0, { n_markers := 0, markers := [] }) := by
  have h1 : (parse_edf_annotations c2_samples sr
      { n_markers := 0, markers := [] }).1
      = some ((1 : ℚ) * (((0 : ℕ) : ℚ) + ((0 : ℕ) : ℚ) / (10 : ℚ) ^ (1 : ℕ))) :=
    rfl
  have h2 : (parse_edf_annotations c2_samples sr
      { n_markers := 0, markers := [] }).2
      = { n_markers := 0, markers := [] } := rfl
  refine Prod.ext ?_ h2
  rw [h1]
  norm_num

/-- The C7 input stream: sample words whose reassembled bytes are the TAL
records `"X\x14Y\x14Z\x00"` (three fields, unparsable first field) followed
by `"+4\x14A\x14B\x00"` (three fields, parsable onset `4`), with one
trailing pad byte. -/
def c7_samples : List ℚ :=
  [5208, 5209, 90, 13355, 16660, 16916, 0]

/-- Counterexample to C7 as frozen: the first non-empty record
`"X\x14Y\x14Z"` has an unparsable first field, so per the claim the onset
should default to `0.0` and the second record's marker should be
`4.0 * 10 = 40`.  The code instead adopts the *second* record's onset
`4.0` (the reference onset is retried on every record until one parses)
and emits the marker `(4.0 - 4.0) * 10 = 0 ≠ 40`. -/
theorem annotation_c7_counterexample :
    (parse_edf_annotations c7_samples 10
        { n_markers := 0, markers := [] }).1 = some ((1 : ℚ) * ((4 : ℕ) : ℚ))
    ∧ (parse_edf_annotations c7_samples 10
        { n_markers := 0, markers := [] }).2.markers ≠ [(40 : ℚ)] := by
  constructor
  · rfl
  · have hm : (parse_edf_annotations c7_samples 10
        { n_markers := 0, markers := [] }).2.markers
        = [((1 : ℚ) * ((4 : ℕ) : ℚ) - (1 : ℚ) * ((4 : ℕ) : ℚ)) * ((10 : ℕ) : ℚ)] :=
      rfl
    rw [hm]
    intro h
    simp only [List.cons.injEq, and_true] at h
    norm_num at h

/-- C7 (amended): the reference onset finally recorded by the annotation
decoder is the parsed first field of the *earliest* record, among all
non-empty records in stream order (not only the very first one), whose
first field begins with `+` and parses as a number; it stays unset
(so `0.0` would be substituted for markers) only while no record has
parsed. -/
theorem annotation_onset_first_parsable
    (signal_data : List ℚ) (sr : ℕ) (m : Markers) :
    (parse_edf_annotations signal_data sr m).1
      = (tal_onsets (annotation_records (signal_data.map f32_to_u16))).head? := by
  simp only [parse_edf_annotations, parse_edf_annotations_u16]
  rw [foldl_tal_step_fst]

/-! ### src/edfio.rs — `parse_edf_info_load_data`, and the caller model of
src/app.rs

The external `edf_reader` crate is an external collaborator (spec §6): the
embedding receives the parsed `EDFHeader` and the result of
`read_data_window` as inputs instead of performing file I/O.  The
average-reference function is a parameter (`refFn`) instantiated with
`compute_average_reference_f32`, so that the error-handling structure of
the load can be stated for an arbitrary referencing outcome. -/

/-- The fields of the external `edf_reader` crate's `EDFChannel` used by
this core. -/
structure EDFChannel where
  label : String
  number_of_samples_in_data_record : ℕ
  deriving DecidableEq

/-- The fields of the external `edf_reader` crate's `EDFHeader` used by
this core (`block_duration` in milliseconds). -/
structure EDFHeader where
  number_of_blocks : ℕ
  block_duration : ℕ
  channels : List EDFChannel
  deriving DecidableEq

/-- The `RawEEG` struct of src/lib.rs (the raw-header string is kept as an
opaque optional string). -/
structure RawEEG where
  file_path : Option String := none
  raw_header : Option String := none
  header : Option EDFHeader := none
  number_of_channels : Option ℕ := none
  channels : Option (List EDFChannel) := none
  sampling_frequency : Option ℕ := none
  total_duration_ms : Option ℕ := none
  edf_data : Option (List (List ℚ)) := none
  bv_data : Option (List (List ℤ)) := none
  edf_data_avg_ref : Option (List (List ℚ)) := none
  bv_data_avg_ref : Option (List (List ℤ)) := none
  deriving DecidableEq

/-- The `EEGInfo` struct of src/lib.rs. -/
structure EEGInfo where
  num_ch : ℤ := 0
  ch_namesx : Option (List String) := none
  ch_names : List String := []
  sfreq : ℤ := 0
  data_orientation : Option String := none
  binary_format : Option String := none
  sampling_interval_in : Option String := none
  sampling_interval : Option ℤ := none
  deriving DecidableEq

/-- Model of `std::io::ErrorKind` restricted to the kinds this core produces. -/
inductive IoErrorKind where
  | notFound
  | invalidData
  | other
  deriving DecidableEq

/-- A `std::io::Error`: a kind plus its message. -/
structure IoError where
  kind : IoErrorKind
  msg : String
  deriving DecidableEq

/-- Wrapping `u64` arithmetic. -/
def u64_wrap (x : ℕ) : ℕ := x % 2 ^ 64

/-- Rust `as i32` on an unsigned 64-bit quantity: wrap modulo `2^32`,
reinterpreted as signed. -/
def i32_wrap (x : ℕ) : ℤ :=
  if x % 2 ^ 32 < 2 ^ 31 then (x % 2 ^ 32 : ℤ) else (x % 2 ^ 32 : ℤ) - 2 ^ 32

/-- The per-channel sampling rates of src/edfio.rs:93-96: for every
channel except the reserved last one,
`number_of_samples_in_data_record * 1000 / block_duration` in `u64`
arithmetic. -/
def channel_sfreqs (header : EDFHeader) : List ℕ :=
  header.channels.dropLast.map
    (fun c => u64_wrap (c.number_of_samples_in_data_record * 1000)
      / header.block_duration)

/-- Rust `sfreqs.windows(2).all(|w| w[0] == w[1])` (src/edfio.rs:100). -/
def windows_all_eq (l : List ℕ) : Bool :=
  (l.zip l.tail).all (fun p => p.1 == p.2)

/-- The inconsistent-row-length check of src/edfio.rs:122-130: with a
first row present, report whether some row length differs from it. -/
def ragged_check (m : List (List ℚ)) : Bool :=
  match m.head? with
  | some first => !(m.all (fun ch => ch.length == first.length))
  | none => false

/-- Rust `str::contains` with a literal pattern. -/
def str_contains (hay pat : String) : Bool :=
  decide (List.IsInfix pat.toList hay.toList)

/-- Embedding of `parse_edf_info_load_data` (src/edfio.rs:54-171),
parameterised over the referencing function called at src/edfio.rs:134.
Inputs `header` and `read_data` stand for the external reader's parsed
header and the result of `read_data_window`.  `none` models a Rust panic:
the `u64` division by a zero `block_duration` in the sampling-rate loop
(reached only when the loop body runs, i.e. with at least two channels)
and the `sfreqs[0]` index on a single-channel file.  Failures discard the
partially updated structs, as the caller (src/app.rs:386-389) sends only
the error through the channel. -/
def parse_edf_info_load_data_with
    (refFn : List (List ℚ) → Option (Except String (List (List ℚ))))
    (file_path : String) (header : EDFHeader)
    (read_data : Except IoError (List (List ℚ)))
    (print_info load_data : Bool)
    (raw_eeg : RawEEG) (eeg_info : EEGInfo) (eeg_markers : Markers) :
    Option (Except IoError (RawEEG × EEGInfo × Markers)) :=
  let raw₀ := { raw_eeg with
    file_path := some file_path, header := some header }
  if header.channels.length = 0 then
    some (Except.error ⟨IoErrorKind.invalidData, "No channels in EDF file"⟩)
  else
    let number_of_channels := header.channels.length
    let raw₁ := { raw₀ with
      number_of_channels := some number_of_channels,
      channels := some header.channels }
    let info₁ := { eeg_info with
      num_ch := i32_wrap number_of_channels,
      ch_names := header.channels.map (fun c : EDFChannel => c.label) }
    let total_duration_ms :=
      u64_wrap (header.number_of_blocks * header.block_duration)
    if 2 ≤ number_of_channels ∧ header.block_duration = 0 then none
    else
      let sfreqs := channel_sfreqs header
      if sfreqs = [] then none
      else
        let info₂ := { info₁ with sfreq := i32_wrap sfreqs.headI }
        let raw₂ :=
          if windows_all_eq sfreqs then
            { raw₁ with sampling_frequency := some sfreqs.headI }
          else raw₁
        let raw₃ := { raw₂ with total_duration_ms := some total_duration_ms }
        if load_data then
          match read_data with
          | Except.error e => some (Except.error e)
          | Except.ok data =>
            let raw₄ := { raw₃ with edf_data := some data }
            if 1 < data.length then
              let eeg_data_only := data.dropLast
              if ragged_check eeg_data_only then
                some (Except.error
                  ⟨IoErrorKind.invalidData, "Channels have different lengths"⟩)
              else
                let raw₅ := { raw₄ with edf_data := some eeg_data_only }
                let finish :
                    RawEEG → Option (Except IoError (RawEEG × EEGInfo × Markers)) :=
                  fun raw =>
                    if str_contains (header.channels.getLastD ⟨"", 0⟩).label
                        "EDF Annotations" then
                      some (Except.ok (raw, info₂,
                        (parse_edf_annotations (data.getLastD [])
                          (raw.sampling_frequency.getD 1) eeg_markers).2))
                    else
                      some (Except.ok (raw, info₂, eeg_markers))
                match refFn eeg_data_only with
                | none => none
                | some (Except.ok avg_ref) =>
                    finish { raw₅ with edf_data_avg_ref := some avg_ref }
                | some (Except.error _) =>
                    finish { raw₅ with edf_data_avg_ref := none }
            else
              some (Except.error
                ⟨IoErrorKind.invalidData, "Not enough channels in data"⟩)
        else
          some (Except.ok (raw₃, info₂, eeg_markers))

/-- Definition `parse_edf_info_load_data` proper: the referencing function is
`compute_average_reference_f32` (src/edfio.rs:134). -/
def parse_edf_info_load_data :=
  parse_edf_info_load_data_with compute_average_reference_f32

/-- Result of one `try_recv` on the loading channel
(src/app.rs:181-207). -/
inductive TryRecvOutcome (α : Type) where
  | okOk (payload : α)
  | okErr (e : IoError)
  | empty
  | disconnected

/-- The data-model part of `TemplateApp` touched by the loading receiver:
its recording structures and whether a loading receiver is installed. -/
structure TemplateAppModel where
  raw_eeg : RawEEG
  eeg_info : EEGInfo
  eeg_markers : Markers
  loading_receiver : Bool

/-- The loading-receiver handling of `TemplateApp::update`
(src/app.rs:181-207): a successful payload replaces the three structures;
an error, a disconnect, or an empty channel leaves them untouched. -/
def handle_loading_recv (app : TemplateAppModel)
    (r : TryRecvOutcome (RawEEG × EEGInfo × Markers)) : TemplateAppModel :=
  match r with
  | TryRecvOutcome.okOk p =>
      { app with
        raw_eeg := p.1
        eeg_info := p.2.1
        eeg_markers := p.2.2
        loading_receiver := false }
  | TryRecvOutcome.okErr _ => { app with loading_receiver := false }
  | TryRecvOutcome.empty => app
  | TryRecvOutcome.disconnected => { app with loading_receiver := false }

lemma i32_wrap_eq_of_lt (x : ℕ) (h : x < 2 ^ 31) : i32_wrap x = (x : ℤ) := by
  unfold i32_wrap
  split <;> omega

lemma channel_sfreqs_ne_nil (header : EDFHeader)
    (h2 : 2 ≤ header.channels.length) : channel_sfreqs header ≠ [] := by
  have hlen : (channel_sfreqs header).length = header.channels.length - 1 := by
    simp [channel_sfreqs]
  intro h
  rw [h] at hlen
  simp at hlen
  omega

lemma ragged_false_guard (m : List (List ℚ)) (h : ragged_check m = false) :
    ∀ r ∈ m, m.headI.length ≤ r.length := by
  cases m with
  | nil => simp
  | cons a l =>
    simp only [ragged_check, List.head?_cons, Bool.not_eq_false',
      List.all_eq_true] at h
    intro r hr
    have := h r hr
    simp only [beq_iff_eq] at this
    simp [this]

lemma avg_f32_ok (m : List (List ℚ))
    (hguard : ∀ r ∈ m, m.headI.length ≤ r.length) :
    ∃ R, compute_average_reference_f32 m = some (Except.ok R) := by
  by_cases hm : m = []
  · exact ⟨[], by subst hm; rfl⟩
  · refine ⟨m.map (fun row => (List.range m.headI.length).map
      (fun s => row.getD s 0 - colAvgQ m s)), ?_⟩
    simp only [compute_average_reference_f32]
    rw [if_neg hm, if_pos hguard]

/-- C4: a load whose parsed header declares zero channels fails with a
`FormatError` (`InvalidData`, "No channels in EDF file"), and on any load
failure the caller's receiver handling leaves the in-memory
`RawEEG`/`EEGInfo`/`Markers` exactly as they were. -/
theorem load_zero_channels_fails
    (refFn : List (List ℚ) → Option (Except String (List (List ℚ))))
    (file_path : String) (header : EDFHeader)
    (read_data : Except IoError (List (List ℚ)))
    (print_info load_data : Bool) (raw_eeg : RawEEG) (eeg_info : EEGInfo)
    (eeg_markers : Markers) (hz : header.channels = []) :
    parse_edf_info_load_data_with refFn file_path header read_data
        print_info load_data raw_eeg eeg_info eeg_markers
      = some (Except.error
          ⟨IoErrorKind.invalidData, "No channels in EDF file"⟩)
    ∧ ∀ (app : TemplateAppModel) (e : IoError),
        (handle_loading_recv app (TryRecvOutcome.okErr e)).raw_eeg
            = app.raw_eeg
        ∧ (handle_loading_recv app (TryRecvOutcome.okErr e)).eeg_info
            = app.eeg_info
        ∧ (handle_loading_recv app (TryRecvOutcome.okErr e)).eeg_markers
            = app.eeg_markers := by
  refine ⟨?_, fun app e => ⟨rfl, rfl, rfl⟩⟩
  simp [parse_edf_info_load_data_with, hz]

/-- Witness for C4 at concrete inputs. -/
theorem load_zero_channels_fails_witness :
    parse_edf_info_load_data_with (fun _ => none) "f" ⟨1, 1000, []⟩
        (Except.ok []) false true {} {} ⟨0, []⟩
      = some (Except.error
          ⟨IoErrorKind.invalidData, "No channels in EDF file"⟩)
    ∧ ∀ (app : TemplateAppModel) (e : IoError),
        (handle_loading_recv app (TryRecvOutcome.okErr e)).raw_eeg
            = app.raw_eeg
        ∧ (handle_loading_recv app (TryRecvOutcome.okErr e)).eeg_info
            = app.eeg_info
        ∧ (handle_loading_recv app (TryRecvOutcome.okErr e)).eeg_markers
            = app.eeg_markers :=
  load_zero_channels_fails (fun _ => none) "f" ⟨1, 1000, []⟩ (Except.ok [])
    false true {} {} ⟨0, []⟩ rfl

/-- C10: with sample loading requested, a decoded data window of one or
zero channel rows makes the load fail with `InvalidData`
("Not enough channels in data") even though the header declared a nonzero
channel count (at least two here; a single-channel header already panics
on `sfreqs[0]` before reaching the data), and conversely no load with such
a window ever succeeds: success requires at least two decoded rows. -/
theorem insufficient_data_rows :
    (∀ (refFn : List (List ℚ) → Option (Except String (List (List ℚ))))
        (file_path : String) (header : EDFHeader) (data : List (List ℚ))
        (print_info : Bool) (raw_eeg : RawEEG) (eeg_info : EEGInfo)
        (eeg_markers : Markers),
      2 ≤ header.channels.length → 0 < header.block_duration →
      data.length ≤ 1 →
      parse_edf_info_load_data_with refFn file_path header (Except.ok data)
          print_info true raw_eeg eeg_info eeg_markers
        = some (Except.error
            ⟨IoErrorKind.invalidData, "Not enough channels in data"⟩))
    ∧ (∀ (refFn : List (List ℚ) → Option (Except String (List (List ℚ))))
        (file_path : String) (header : EDFHeader) (data : List (List ℚ))
        (print_info : Bool) (raw_eeg : RawEEG) (eeg_info : EEGInfo)
        (eeg_markers : Markers) (r : RawEEG × EEGInfo × Markers),
      data.length ≤ 1 →
      parse_edf_info_load_data_with refFn file_path header (Except.ok data)
          print_info true raw_eeg eeg_info eeg_markers
        ≠ some (Except.ok r)) := by
  constructor
  · intro refFn fp header data pi raw info mk h2 hbd hd
    have h0 : ¬(header.channels.length = 0) := by omega
    have hns : ¬(2 ≤ header.channels.length ∧ header.block_duration = 0) := by
      omega
    have hsf : ¬(channel_sfreqs header = []) := channel_sfreqs_ne_nil header h2
    have hd1 : ¬(1 < data.length) := by omega
    simp only [parse_edf_info_load_data_with, if_neg h0, if_neg hns,
      if_neg hsf, if_neg hd1, if_true]
  · intro refFn fp header data pi raw info mk r hd heq
    simp only [parse_edf_info_load_data_with] at heq
    split_ifs at heq <;> first | omega | simp_all

/-- Witness for C10 at concrete inputs: a two-channel header with a
one-row data window. -/
theorem insufficient_data_rows_witness :
    parse_edf_info_load_data_with (fun _ => none) "f"
        ⟨1, 1000, [⟨"a", 10⟩, ⟨"b", 10⟩]⟩ (Except.ok [[1]]) false true
        {} {} ⟨0, []⟩
      = some (Except.error
          ⟨IoErrorKind.invalidData, "Not enough channels in data"⟩)
    ∧ parse_edf_info_load_data_with (fun _ => none) "f"
        ⟨1, 1000, [⟨"a", 10⟩, ⟨"b", 10⟩]⟩ (Except.ok [[1]]) false true
        {} {} ⟨0, []⟩
      ≠ some (Except.ok ({}, {}, ⟨0, []⟩)) :=
  ⟨insufficient_data_rows.1 (fun _ => none) "f"
      ⟨1, 1000, [⟨"a", 10⟩, ⟨"b", 10⟩]⟩ [[1]] false {} {} ⟨0, []⟩
      (by decide) (by decide) (by decide),
   insufficient_data_rows.2 (fun _ => none) "f"
      ⟨1, 1000, [⟨"a", 10⟩, ⟨"b", 10⟩]⟩ [[1]] false {} {} ⟨0, []⟩
      ({}, {}, ⟨0, []⟩) (by decide)⟩

/-- C6: when the eager average-reference computation during a
sample-loading load fails, the load still succeeds: the error is only
logged, `edf_data_avg_ref` is left `None`, and the unreferenced
(annotation-stripped) sample matrix stays installed as `edf_data`.  Stated
for an arbitrary referencing outcome via the `refFn` parameter, since
`compute_average_reference_f32` itself never fails. -/
theorem referencing_failure_nonfatal
    (refFn : List (List ℚ) → Option (Except String (List (List ℚ))))
    (file_path : String) (header : EDFHeader) (data : List (List ℚ))
    (raw_eeg : RawEEG) (eeg_info : EEGInfo) (eeg_markers : Markers)
    (e : String)
    (h2 : 2 ≤ header.channels.length) (hbd : 0 < header.block_duration)
    (hdata : 1 < data.length) (hrag : ragged_check data.dropLast = false)
    (href : refFn data.dropLast = some (Except.error e)) :
    ∃ raw' info' mk',
      parse_edf_info_load_data_with refFn file_path header (Except.ok data)
          false true raw_eeg eeg_info eeg_markers
        = some (Except.ok (raw', info', mk'))
      ∧ raw'.edf_data_avg_ref = none
      ∧ raw'.edf_data = some data.dropLast := by
  have h0 : ¬(header.channels.length = 0) := by omega
  have hns : ¬(2 ≤ header.channels.length ∧ header.block_duration = 0) := by
    omega
  have hsf : ¬(channel_sfreqs header = []) := channel_sfreqs_ne_nil header h2
  have hragp : ¬(ragged_check data.dropLast = true) := by simp [hrag]
  simp only [parse_edf_info_load_data_with, if_neg h0, if_neg hns, if_neg hsf,
    if_pos hdata, if_neg hragp, href]
  by_cases hl : str_contains (header.channels.getLastD ⟨"", 0⟩).label
      "EDF Annotations" = true
  · rw [if_pos hl]
    exact ⟨_, _, _, rfl, by simp, by simp⟩
  · rw [if_neg hl]
    exact ⟨_, _, _, rfl, by simp, by simp⟩

/-- Witness for C6 at concrete inputs, with a referencing function that
fails. -/
theorem referencing_failure_nonfatal_witness :
    ∃ raw' info' mk',
      parse_edf_info_load_data_with
          (fun _ => some (Except.error "synthetic failure")) "f"
          ⟨1, 1000, [⟨"a", 10⟩, ⟨"b", 10⟩]⟩ (Except.ok [[1], [2]])
          false true {} {} ⟨0, []⟩
        = some (Except.ok (raw', info', mk'))
      ∧ raw'.edf_data_avg_ref = none
      ∧ raw'.edf_data = some [[1], [2]].dropLast :=
  referencing_failure_nonfatal
    (fun _ => some (Except.error "synthetic failure")) "f"
    ⟨1, 1000, [⟨"a", 10⟩, ⟨"b", 10⟩]⟩ [[1], [2]] {} {} ⟨0, []⟩
    "synthetic failure" (by decide) (by decide) (by decide) (by decide) rfl

/-- C3: the per-channel sampling rate is
`samples_per_record * 1000 / block_duration_ms` for every channel except
the reserved last one; when those rates differ the load nevertheless
succeeds (the discrepancy is only logged), the first channel's rate is
adopted as the recording's sampling rate (`EEGInfo.sfreq`), and
`RawEEG.sampling_frequency` is left untouched.  The arithmetic
side-conditions keep the `u64`/`i32` machine arithmetic equal to the exact
formula. -/
theorem sampling_rate_first_channel
    (file_path : String) (header : EDFHeader) (data : List (List ℚ))
    (raw_eeg : RawEEG) (eeg_info : EEGInfo) (eeg_markers : Markers)
    (h2 : 2 ≤ header.channels.length)
    (hbd : 0 < header.block_duration)
    (hovf : ∀ c ∈ header.channels,
      c.number_of_samples_in_data_record * 1000 < 2 ^ 64)
    (hfit : (channel_sfreqs header).headI < 2 ^ 31)
    (hdiff : windows_all_eq (channel_sfreqs header) = false)
    (hdata : 1 < data.length)
    (hrag : ragged_check data.dropLast = false) :
    channel_sfreqs header
        = header.channels.dropLast.map
            (fun c : EDFChannel =>
              c.number_of_samples_in_data_record * 1000
                / header.block_duration)
    ∧ ∃ raw' info' mk',
        parse_edf_info_load_data file_path header (Except.ok data)
            false true raw_eeg eeg_info eeg_markers
          = some (Except.ok (raw', info', mk'))
        ∧ info'.sfreq = ((channel_sfreqs header).headI : ℤ)
        ∧ raw'.sampling_frequency = raw_eeg.sampling_frequency := by
  constructor
  · simp only [channel_sfreqs]
    refine List.map_congr_left (fun c hc => ?_)
    have hmem : c ∈ header.channels := List.dropLast_subset _ hc
    unfold u64_wrap
    rw [Nat.mod_eq_of_lt (hovf c hmem)]
  · obtain ⟨R, hR⟩ := avg_f32_ok data.dropLast (ragged_false_guard _ hrag)
    have h0 : ¬(header.channels.length = 0) := by omega
    have hns : ¬(2 ≤ header.channels.length ∧ header.block_duration = 0) := by
      omega
    have hsf : ¬(channel_sfreqs header = []) :=
      channel_sfreqs_ne_nil header h2
    have hdiffp : ¬(windows_all_eq (channel_sfreqs header) = true) := by
      simp [hdiff]
    have hragp : ¬(ragged_check data.dropLast = true) := by simp [hrag]
    simp only [parse_edf_info_load_data, parse_edf_info_load_data_with,
      if_neg h0, if_neg hns, if_neg hsf, if_neg hdiffp, if_pos hdata,
      if_neg hragp, hR]
    by_cases hl : str_contains (header.channels.getLastD ⟨"", 0⟩).label
        "EDF Annotations" = true
    · rw [if_pos hl]
      refine ⟨_, _, _, rfl, ?_, ?_⟩
      · simp [i32_wrap_eq_of_lt _ hfit]
      · simp
    · rw [if_neg hl]
      refine ⟨_, _, _, rfl, ?_, ?_⟩
      · simp [i32_wrap_eq_of_lt _ hfit]
      · simp

/-- Witness for C3 at concrete inputs: three channels with differing rates
(100 Hz and 200 Hz) ahead of the reserved annotation channel. -/
theorem sampling_rate_first_channel_witness :
    channel_sfreqs ⟨3, 1000, [⟨"C3a", 100⟩, ⟨"C3b", 200⟩,
        ⟨"EDF Annotations", 10⟩]⟩
        = [⟨"C3a", 100⟩, ⟨"C3b", 200⟩, ⟨"EDF Annotations", 10⟩].dropLast.map
            (fun c : EDFChannel =>
              c.number_of_samples_in_data_record * 1000 / 1000)
    ∧ ∃ raw' info' mk',
        parse_edf_info_load_data "f"
            ⟨3, 1000, [⟨"C3a", 100⟩, ⟨"C3b", 200⟩, ⟨"EDF Annotations", 10⟩]⟩
            (Except.ok [[1], [2], [3]]) false true {} {} ⟨0, []⟩
          = some (Except.ok (raw', info', mk'))
        ∧ info'.sfreq = ((channel_sfreqs ⟨3, 1000, [⟨"C3a", 100⟩,
            ⟨"C3b", 200⟩, ⟨"EDF Annotations", 10⟩]⟩).headI : ℤ)
        ∧ raw'.sampling_frequency = ({} : RawEEG).sampling_frequency :=
  sampling_rate_first_channel "f"
    ⟨3, 1000, [⟨"C3a", 100⟩, ⟨"C3b", 200⟩, ⟨"EDF Annotations", 10⟩]⟩
    [[1], [2], [3]] {} {} ⟨0, []⟩ (by decide) (by decide) (by decide)
    (by decide) (by decide) (by decide) (by decide)

/-! ### src/app.rs — filter pipeline composition

The filter stage implementations live in the repository's `signal` module,
which is not among the provided sources; the pipeline composition of
`TemplateApp::update` (src/app.rs:458-499) is embedded with the three
stages as function parameters. -/

/-- The three filter stages, for order instrumentation. -/
inductive FilterStage where
  | highpass
  | lowpass
  | notch
  deriving DecidableEq

/-- The filter-request composition of src/app.rs:463-472 (EDF branch) and
src/app.rs:483-492 (BrainVision branch): the high-pass result is chained
with `and_then` into the low-pass stage and then into the notch stage,
the latter only when `apply_notch` is set. -/
def filter_chain {α : Type} (hp lp nf : α → Except String α)
    (apply_notch : Bool) (d : α) : Except String α :=
  Except.bind (Except.bind (hp d) lp)
    (fun filtered => if apply_notch then nf filtered else Except.ok filtered)

/-- The EDF (floating-point family) filter request of src/app.rs:459-478:
`edf_hp_filter`, `edf_lp_filter`, `edf_notch_filter_50hz` composed by
`filter_chain` over `f32` matrices. -/
def edf_filter_pipeline
    (hp lp nf : List (List ℚ) → Except String (List (List ℚ)))
    (apply_notch : Bool) (d : List (List ℚ)) :
    Except String (List (List ℚ)) :=
  filter_chain hp lp nf apply_notch d

/-- The BrainVision (integer family) filter request of
src/app.rs:479-499: `hp_filter`, `lp_filter`, `notch_filter_50hz`
composed by `filter_chain` over `i16` matrices. -/
def bv_filter_pipeline
    (hp lp nf : List (List ℤ) → Except String (List (List ℤ)))
    (apply_notch : Bool) (d : List (List ℤ)) :
    Except String (List (List ℤ)) :=
  filter_chain hp lp nf apply_notch d

/-- Modelled from the spec: the sanctioned composition
`notch(lowpass(highpass(M)))` — high-pass first, then low-pass, then the
optional notch — with each stage's failure propagated. -/
def spec_filter_order {α : Type} (hp lp nf : α → Except String α)
    (apply_notch : Bool) (d : α) : Except String α :=
  match hp d with
  | Except.error e => Except.error e
  | Except.ok m1 =>
      match lp m1 with
      | Except.error e => Except.error e
      | Except.ok m2 => if apply_notch then nf m2 else Except.ok m2

/-- A total stage instrumented to record its own application in an
order trace. -/
def staged {α : Type} (s : FilterStage) (f : α → α) :
    α × List FilterStage → Except String (α × List FilterStage) :=
  fun p => Except.ok (f p.1, p.2 ++ [s])

/-- C5: in both numeric families the filter request applies exactly the
spec's composition — high-pass, then low-pass, then the fixed-frequency
notch only when enabled — and instrumented total stages record the
application order `[highpass, lowpass]`, extended by `notch` exactly when
the notch is enabled. -/
theorem filter_pipeline_order :
    (∀ (hp lp nf : List (List ℚ) → Except String (List (List ℚ)))
        (apply_notch : Bool) (d : List (List ℚ)),
      edf_filter_pipeline hp lp nf apply_notch d
        = spec_filter_order hp lp nf apply_notch d)
    ∧ (∀ (hp lp nf : List (List ℤ) → Except String (List (List ℤ)))
        (apply_notch : Bool) (d : List (List ℤ)),
      bv_filter_pipeline hp lp nf apply_notch d
        = spec_filter_order hp lp nf apply_notch d)
    ∧ (∀ (hp lp nf : List (List ℚ) → List (List ℚ)) (apply_notch : Bool)
        (d : List (List ℚ)),
      filter_chain (staged FilterStage.highpass hp)
          (staged FilterStage.lowpass lp) (staged FilterStage.notch nf)
          apply_notch (d, [])
        = Except.ok
            ((if apply_notch then nf (lp (hp d)) else lp (hp d)),
              [FilterStage.highpass, FilterStage.lowpass]
                ++ (if apply_notch then [FilterStage.notch] else []))) := by
  refine ⟨?_, ?_, ?_⟩
  · intro hp lp nf b d
    simp only [edf_filter_pipeline, filter_chain, spec_filter_order]
    cases hhp : hp d with
    | error e => simp [Except.bind]
    | ok m1 =>
      cases hlp : lp m1 with
      | error e => simp [Except.bind, hlp]
      | ok m2 => simp [Except.bind, hlp]
  · intro hp lp nf b d
    simp only [bv_filter_pipeline, filter_chain, spec_filter_order]
    cases hhp : hp d with
    | error e => simp [Except.bind]
    | ok m1 =>
      cases hlp : lp m1 with
      | error e => simp [Except.bind, hlp]
      | ok m2 => simp [Except.bind, hlp]
  · intro hp lp nf b d
    cases b <;> rfl
